import Mathlib

/-!
Verification of the control-protocol engine of `claude-code-rs`.

The definitions below are a shallow embedding of the Rust sources:

* `src/query.rs` — the `Query` engine: control-request dispatch
  (`dispatch_control_request`, `handle_can_use_tool`, `handle_hook_callback`,
  `handle_mcp_message`), control-response routing (`route_control_response`),
  outbound frames (`send_message`, `send_control_command`, `initialize`).
* `src/transport/subprocess.rs` — the stdout pump loop.
* `src/types/control.rs` — `SDKCapabilities` and the init message.
* `src/types/hooks.rs` — hook registration types and `HookDecision::as_str`.
* `src/types/permissions.rs` — permission callback types.

JSON values (`serde_json::Value`) are modelled by `Json`; objects are
association lists with unique keys in insertion order (the claims under
study only inspect objects through key lookup, so the `BTreeMap` key
ordering of `serde_json` is irrelevant).  Async callbacks are modelled as
pure functions: every callback in the Rust signatures returns a value and
cannot raise.
-/

/-- Model of `serde_json::Value`.  Numbers are modelled as integers; none of
the verified code paths construct or inspect non-integer numbers. -/
inductive Json where
  | null : Json
  | bool (b : Bool) : Json
  | num (n : Int) : Json
  | str (s : String) : Json
  | arr (elems : List Json) : Json
  | obj (fields : List (String × Json)) : Json

/-- Association-list lookup, first match wins; models `Map::get`. -/
def lookupKey {α : Type} : List (String × α) → String → Option α
  | [], _ => none
  | (k', v) :: rest, k => if k' = k then some v else lookupKey rest k

/-- Remove every binding of a key; models `Map::remove`'s effect on the map
(keys are unique in all maps built here, so at most one binding exists). -/
def eraseKey {α : Type} (l : List (String × α)) (k : String) : List (String × α) :=
  l.filter (fun p => p.1 != k)

/-- Insert or replace a binding; models `map[key] = value` on
`serde_json::Value::Object`. -/
def setKeyFields : List (String × Json) → String → Json → List (String × Json)
  | [], k, v => [(k, v)]
  | (k', v') :: rest, k, v =>
    if k' = k then (k, v) :: rest else (k', v') :: setKeyFields rest k v

/-- Field access on a JSON value; models `Value::get(key)`. -/
def Json.get : Json → String → Option Json
  | .obj fields, k => lookupKey fields k
  | _, _ => none

/-- Models `Value::as_str`. -/
def Json.asStr : Json → Option String
  | .str s => some s
  | _ => none

/-- Models `value.get(key).and_then(|v| v.as_str()).unwrap_or(default)`. -/
def getStrD (j : Json) (k : String) (d : String) : String :=
  ((j.get k).bind Json.asStr).getD d

/-- Models `value.get(key).cloned().unwrap_or(Value::Null)`. -/
def getValD (j : Json) (k : String) : Json :=
  (j.get k).getD .null

/-- Models `map[key] = value` insertion on an object (the only use sites
index into values known to be objects). -/
def Json.setKey : Json → String → Json → Json
  | .obj fields, k, v => .obj (setKeyFields fields k v)
  | j, _, _ => j

/-- Key list of an object (empty for non-objects). -/
def Json.keys : Json → List String
  | .obj fields => fields.map Prod.fst
  | _ => []


/-!
Types from `src/types/hooks.rs` and `src/types/permissions.rs`.
-/

/-- Rust `HookEvent` (src/types/hooks.rs lines 10-21). -/
inductive HookEvent where
  | PreToolUse
  | PostToolUse
  | Notification
  | Stop
  | SubagentStop
deriving Repr, DecidableEq

/-- Rust `HookEvent::as_str` (src/types/hooks.rs lines 30-38). -/
def HookEvent.as_str : HookEvent → String
  | .PreToolUse => "PreToolUse"
  | .PostToolUse => "PostToolUse"
  | .Notification => "Notification"
  | .Stop => "Stop"
  | .SubagentStop => "SubagentStop"

/-- Rust `HookDecision` (src/types/hooks.rs lines 109-113). -/
inductive HookDecision where
  | Approve
  | Block
  | Ignore
deriving Repr, DecidableEq

/-- Rust `HookDecision::as_str` (src/types/hooks.rs lines 122-128): note `Block`
is rendered as `"deny"`, not `"block"`. -/
def HookDecision.as_str : HookDecision → String
  | .Approve => "approve"
  | .Block => "deny"
  | .Ignore => "ignore"

/-- Rust `HookMatcher` (src/types/hooks.rs lines 43-46). -/
structure HookMatcher where
  tool_name : Option String
deriving Repr, DecidableEq

/-- Rust `PreToolUseInput` (src/types/hooks.rs lines 50-55). -/
structure PreToolUseInput where
  tool_name : String
  tool_input : Json

/-- Rust `PostToolUseInput` (src/types/hooks.rs lines 59-66). -/
structure PostToolUseInput where
  tool_name : String
  tool_input : Json
  tool_output : Json

/-- Rust `NotificationInput` (src/types/hooks.rs lines 70-75). -/
structure NotificationInput where
  title : String
  message : Option String

/-- Rust `StopInput` (src/types/hooks.rs lines 79-82). -/
structure StopInput where
  reason : Option String

/-- Rust `HookInput` (src/types/hooks.rs lines 88-93). -/
inductive HookInput where
  | PreToolUse (input : PreToolUseInput)
  | PostToolUse (input : PostToolUseInput)
  | Notification (input : NotificationInput)
  | Stop (input : StopInput)

/-- Rust `HookOutput` (src/types/hooks.rs lines 97-104). -/
structure HookOutput where
  decision : Option HookDecision
  reason : Option String

/-- Rust `HookCallback` (src/types/hooks.rs lines 176-177); the async callback is
modelled as a pure total function, faithful to its Rust signature which
always yields a `HookOutput` and cannot fail. -/
def HookCallback : Type := HookInput → HookOutput

/-- Rust `HookDefinition` (src/types/hooks.rs lines 159-163). -/
structure HookDefinition where
  event : HookEvent
  matcher : HookMatcher
  callback : HookCallback

/-- Rust `PermissionResult` (src/types/permissions.rs lines 29-35). -/
structure PermissionResult where
  allowed : Bool
  reason : Option String

/-- Rust `CanUseToolInput` (src/types/permissions.rs lines 55-58). -/
structure CanUseToolInput where
  tool_name : String
  input : Json

/-- Rust `CanUseToolCallback` (src/types/permissions.rs lines 61-65), modelled as
a pure total function. -/
def CanUseToolCallback : Type := CanUseToolInput → PermissionResult

/-- Rust `McpMessageHandler` (src/query.rs lines 23-27), modelled as a pure total
function from (server name, message) to the response value. -/
def McpMessageHandler : Type := String → Json → Json

/-!
Deserialization of the typed hook payloads (src/query.rs lines 381-412).
`serde_json::from_value::<T>(v)` for these `#[serde(default)]`-annotated
structs: parsing fails on a non-object, defaults each absent field, fails
if a present field has the wrong shape, and ignores unknown fields.  Each
call site wraps the result in `unwrap_or(<default literal>)`.
-/

/-- Decode a `#[serde(default)] field: String`: absent defaults to `""`,
present must be a JSON string. -/
def fieldString (j : Json) (k : String) : Option String :=
  match j.get k with
  | none => some ""
  | some (.str s) => some s
  | some _ => none

/-- Decode a `#[serde(default)] field: Option<String>`: absent or `null`
gives `None`, a string gives `Some`, anything else fails. -/
def fieldOptString (j : Json) (k : String) : Option (Option String) :=
  match j.get k with
  | none => some none
  | some .null => some none
  | some (.str s) => some (some s)
  | some _ => none

/-- Decode a `#[serde(default)] field: Value`: absent defaults to `Null`,
any present value succeeds. -/
def fieldValue (j : Json) (k : String) : Json :=
  (j.get k).getD .null

/-- Whether a JSON value is an object (serde struct parses reject others). -/
def Json.isObj : Json → Bool
  | .obj _ => true
  | _ => false

/-- Rust `serde_json::from_value::<PreToolUseInput>`. -/
def decodePreToolUse (j : Json) : Option PreToolUseInput :=
  if j.isObj then
    (fieldString j "tool_name").map fun tn => ⟨tn, fieldValue j "tool_input"⟩
  else none

/-- Rust `serde_json::from_value::<PostToolUseInput>`. -/
def decodePostToolUse (j : Json) : Option PostToolUseInput :=
  if j.isObj then
    (fieldString j "tool_name").map fun tn =>
      ⟨tn, fieldValue j "tool_input", fieldValue j "tool_output"⟩
  else none

/-- Rust `serde_json::from_value::<NotificationInput>`. -/
def decodeNotification (j : Json) : Option NotificationInput :=
  if j.isObj then
    (fieldString j "title").bind fun t =>
      (fieldOptString j "message").map fun m => ⟨t, m⟩
  else none

/-- Rust `serde_json::from_value::<StopInput>`. -/
def decodeStop (j : Json) : Option StopInput :=
  if j.isObj then (fieldOptString j "reason").map fun r => ⟨r⟩
  else none

/-- The typed-input selection of `handle_hook_callback`
(src/query.rs lines 381-412): parse according to the hook's registered
event, falling back to the literal defaults written at each `unwrap_or`. -/
def hookTypedInput (event : HookEvent) (hook_input : Json) : HookInput :=
  match event with
  | .PreToolUse => .PreToolUse ((decodePreToolUse hook_input).getD ⟨"", .null⟩)
  | .PostToolUse => .PostToolUse ((decodePostToolUse hook_input).getD ⟨"", .null, .null⟩)
  | .Notification => .Notification ((decodeNotification hook_input).getD ⟨"", none⟩)
  | .Stop => .Stop ((decodeStop hook_input).getD ⟨none⟩)
  | .SubagentStop => .Stop ((decodeStop hook_input).getD ⟨none⟩)

/-!
Model of `str::parse::<usize>` used at src/query.rs lines 374-376:
`callback_id.strip_prefix("hook_").and_then(|s| s.parse().ok())`.
Rust's unsigned-integer parse accepts an optional leading `+` followed by
one or more ASCII digits, and fails on overflow; `usize` is taken to be
64 bits wide.  An overall bound check is equivalent to Rust's per-step
checked arithmetic because the accumulated value grows monotonically.
-/

/-- Decimal value of one ASCII digit character. -/
def decDigit (c : Char) : Nat := c.toNat - 48

/-- Decimal value of a digit list (most significant first). -/
def decValue (cs : List Char) : Nat :=
  cs.foldl (fun a c => 10 * a + decDigit c) 0

/-- Drop one leading `+` sign if present, as Rust's integer parser does. -/
def stripPlus : List Char → List Char
  | [] => []
  | c :: rest => if c = '+' then rest else c :: rest

/-- Model of `s.parse::<usize>().ok()`. -/
def parseUsize (s : String) : Option Nat :=
  let ds := stripPlus s.data
  if ds.isEmpty then none
  else if ds.all Char.isDigit then
    if decValue ds < 2 ^ 64 then some (decValue ds) else none
  else none

/-- Model of `callback_id.strip_prefix("hook_")`. -/
def stripHook (s : String) : Option String :=
  match s.data with
  | c1 :: c2 :: c3 :: c4 :: c5 :: rest =>
    if c1 = 'h' ∧ c2 = 'o' ∧ c3 = 'o' ∧ c4 = 'k' ∧ c5 = '_' then some ⟨rest⟩ else none
  | _ => none


/-!
Round-trip: parsing the decimal rendering `Nat.repr i` recovers `i`.
`Nat.repr` is `(Nat.toDigits 10 i).asString`; the lemmas below recurse on
an explicit-fuel clone of `Nat.toDigitsCore 10`.
-/

/-- Clone of `Nat.toDigitsCore 10` (the printer behind `Nat.repr`) in a
shape convenient for unfolding. -/
def renderDec : Nat → Nat → List Char → List Char
  | 0, _, ds => ds
  | fuel + 1, n, ds =>
    if n / 10 = 0 then Nat.digitChar (n % 10) :: ds
    else renderDec fuel (n / 10) (Nat.digitChar (n % 10) :: ds)


/-!
The control-request handlers of `src/query.rs`.
-/

/-- Rust `handle_can_use_tool` (src/query.rs lines 344-365). -/
def handle_can_use_tool (request : Json) (callback : Option CanUseToolCallback) : Json :=
  let tool_name := getStrD request "tool_name" ""
  let input := getValD request "input"
  match callback with
  | some cb =>
    let result := cb ⟨tool_name, input⟩
    if result.allowed then Json.obj [("behavior", .str "allow")]
    else Json.obj [("behavior", .str "deny"), ("message", .str (result.reason.getD ""))]
  | none => Json.obj [("behavior", .str "allow")]

/-- Rust `handle_hook_callback` (src/query.rs lines 367-443).  `hooks.get(i)` is
`List.get?`; the response object is built exactly as the source does:
start from `{"continue": true}`, insert `hookSpecificOutput` when the hook
returned a decision, and overwrite `continue` with `false` when that
decision is `Block`. -/
def handle_hook_callback (request : Json) (hooks : List HookDefinition) : Json :=
  let callback_id := getStrD request "callback_id" ""
  let hook_input := getValD request "input"
  let hook_index : Option Nat := (stripHook callback_id).bind parseUsize
  match hook_index.bind (fun i => hooks.get? i) with
  | some hook =>
    let typed_input := hookTypedInput hook.event hook_input
    let output := hook.callback typed_input
    let result := Json.obj [("continue", .bool true)]
    match output.decision with
    | none => result
    | some decision =>
      let hook_specific := Json.obj
        [("hookEventName", .str (match hook.event with
            | .PreToolUse => "PreToolUse"
            | .PostToolUse => "PostToolUse"
            | .Notification => "Notification"
            | .Stop => "Stop"
            | .SubagentStop => "SubagentStop")),
         ("permissionDecision", .str (match decision with
            | .Approve => "approve"
            | .Block => "deny"
            | .Ignore => "ignore")),
         ("permissionDecisionReason", .str (output.reason.getD ""))]
      let result := result.setKey "hookSpecificOutput" hook_specific
      if decision = .Block then result.setKey "continue" (.bool false) else result
  | none => Json.obj [("continue", .bool true)]

/-- Index of the registered hook whose callback `handle_hook_callback`
invokes (the `(hook.callback)(typed_input)` call at src/query.rs line 414):
`some i` exactly when the request's `callback_id` parses as `hook_<i>` and
`i` is in range, `none` when no callback is invoked. -/
def invokedHookIndex (request : Json) (hooks : List HookDefinition) : Option Nat :=
  ((stripHook (getStrD request "callback_id" "")).bind parseUsize).bind
    fun i => (hooks.get? i).map fun _ => i

/-- Rust `handle_mcp_message` (src/query.rs lines 445-458). -/
def handle_mcp_message (request : Json) (handler : Option McpMessageHandler) : Json :=
  let server_name := getStrD request "server_name" ""
  let message := getValD request "message"
  match handler with
  | some h => h server_name message
  | none => Json.obj [("error", .str "no MCP handler registered")]

/-- Rust `dispatch_control_request` (src/query.rs lines 294-342).  Returns the
`control_response` frame written back to the transport, or `none` when the
function returns early without writing (inbound frame missing its
`request` field, line 309-312). -/
def dispatch_control_request (value : Json) (hooks : List HookDefinition)
    (can_use_tool : Option CanUseToolCallback) (mcp_handler : Option McpMessageHandler) :
    Option Json :=
  let request_id := getStrD value "request_id" ""
  match value.get "request" with
  | none => none
  | some request =>
    let subtype := getStrD request "subtype" ""
    let response_body :=
      match subtype with
      | "can_use_tool" => handle_can_use_tool request can_use_tool
      | "hook_callback" => handle_hook_callback request hooks
      | "mcp_message" => handle_mcp_message request mcp_handler
      | other => Json.obj [("error", .str ("unknown subtype: " ++ other))]
    some (Json.obj
      [("type", .str "control_response"),
       ("response", Json.obj
         [("subtype", .str "success"),
          ("request_id", .str request_id),
          ("response", response_body)])])

/-- Frame classification of the router loop (src/query.rs lines 238-261):
`value.get("type").and_then(as_str).unwrap_or("")` matched against the two
control frame types, everything else forwarded to the consumer. -/
inductive RouterAction where
  | toCorrelator
  | toDispatcher
  | toConsumer
deriving Repr, DecidableEq

/-- Models the `match msg_type` in `spawn_router` (src/query.rs lines 238-261). -/
def classifyFrame (value : Json) : RouterAction :=
  match getStrD value "type" "" with
  | "control_response" => .toCorrelator
  | "control_request" => .toDispatcher
  | _ => .toConsumer

/-- Rust `Query::send_message` (src/query.rs lines 83-95): the frame written for
a prompt; note `session_id.unwrap_or("")` and the extra
`parent_tool_use_id: null` field. -/
def send_message_frame (prompt : String) (session_id : Option String) : Json :=
  Json.obj
    [("type", .str "user"),
     ("message", Json.obj [("role", .str "user"), ("content", .str prompt)]),
     ("session_id", .str (session_id.getD "")),
     ("parent_tool_use_id", .null)]

/-- Content frame modelled from the spec (section 6): the spec asserts the
outbound content frame is exactly
`{"type":"user","message":{"role":"user","content":<string>},"session_id":<string|null>}`,
with `session_id` null when no session id was given and no further fields. -/
def send_message_frame_spec (prompt : String) (session_id : Option String) : Json :=
  Json.obj
    [("type", .str "user"),
     ("message", Json.obj [("role", .str "user"), ("content", .str prompt)]),
     ("session_id", match session_id with | some sid => .str sid | none => .null)]

/-- Rust `SDKCapabilities` (src/types/control.rs lines 113-124). -/
structure SDKCapabilities where
  hooks : Bool
  permissions : Bool
  mcp : Bool
  agent_definitions : List Json
  mcp_servers : List Json

/-- Serde serialization of `SDKCapabilities`: the two vectors carry
`skip_serializing_if = "Vec::is_empty"`.  Fields are listed in declaration
order; the claims below only read the object through key lookup. -/
def SDKCapabilities.toJson (c : SDKCapabilities) : Json :=
  Json.obj
    ([("hooks", .bool c.hooks), ("permissions", .bool c.permissions), ("mcp", .bool c.mcp)]
      ++ (if c.agent_definitions.isEmpty then []
          else [("agent_definitions", Json.arr c.agent_definitions)])
      ++ (if c.mcp_servers.isEmpty then []
          else [("mcp_servers", Json.arr c.mcp_servers)]))

/-- Rust `Query::initialize` (src/query.rs lines 173-196): the handshake frame
sent on connect.  The capability booleans are computed at lines 176-182
from the presence of the supplied capabilities and embedded at
`request.capabilities`. -/
def initialize_request (hooks : List HookDefinition)
    (can_use_tool : Option CanUseToolCallback) (mcp_handler : Option McpMessageHandler)
    (request_id : String) : Json :=
  let capabilities : SDKCapabilities :=
    { hooks := !hooks.isEmpty
      permissions := can_use_tool.isSome
      mcp := mcp_handler.isSome
      agent_definitions := []
      mcp_servers := [] }
  Json.obj
    [("type", .str "control_request"),
     ("request_id", .str request_id),
     ("request", Json.obj
       [("subtype", .str "initialize"),
        ("protocol_version", .str "1"),
        ("capabilities", capabilities.toJson)])]

/-!
The pending-request table of `Query` (src/query.rs).

`pending_responses: HashMap<String, oneshot::Sender<Value>>` is modelled as
an association list from request id to a flag recording whether the
matching `oneshot::Receiver` is still alive (a send on the one-shot
channel succeeds exactly when it is).  Map keys stay unique because every
insertion goes through `registerPending`.
-/

/-- State of the pending-request table together with the liveness of each
entry's receiving half. -/
structure CorrelatorState where
  pending : List (String × Bool)

/-- Entry insertion of `send_control_command` (src/query.rs lines 118-122):
`pending.insert(request_id, tx)` with a fresh live channel.  `HashMap`
insertion replaces any previous binding of the key. -/
def registerPending (s : CorrelatorState) (request_id : String) : CorrelatorState :=
  ⟨(request_id, true) :: eraseKey s.pending request_id⟩

/-- Effect of the timeout branch of `send_control_command`
(src/query.rs lines 126-129) on the table: `tokio::time::timeout` returns
`Err`, the error is mapped and returned, and the `rx` half is dropped.
The table itself is not touched — no `pending.remove` exists on this path —
so the entry stays behind with a dead receiver. -/
def timeoutPending (s : CorrelatorState) (request_id : String) : CorrelatorState :=
  ⟨s.pending.map fun p => if p.1 = request_id then (p.1, false) else p⟩

/-- Observable result of routing one `control_response` frame. -/
inductive RouteOutcome where
  | delivered (payload : Json)
  | dropped
  | unknown

/-- Rust `route_control_response` (src/query.rs lines 276-292): unwrap the nested
`response` envelope, read its `request_id`, remove the matching pending
entry and complete it (`tx.send`, whose failure when the receiver is gone
is explicitly discarded by `let _ =`), or warn when no entry matches. -/
def route_control_response (s : CorrelatorState) (value : Json) :
    CorrelatorState × RouteOutcome :=
  let response := (value.get "response").getD value
  let request_id := getStrD response "request_id" ""
  match lookupKey s.pending request_id with
  | some alive =>
    (⟨eraseKey s.pending request_id⟩,
     if alive then .delivered response else .dropped)
  | none => (s, .unknown)

/-!
The stdout pump of `src/transport/subprocess.rs` (lines 219-253).

One iteration consumes one `lines.next_line()` event; the loop pushes
decoded frames onto the inbound channel in order.  `serde_json::from_str`
is external library code, abstracted as the `decode` parameter (the spec's
`FrameCodec.decode`).  The consumer side of the bounded channel is
modelled as always receiving (`send` only fails when the receiver is
dropped, which also ends the claims' scenarios).
-/

/-- Model of `str::trim` (the `line.trim()` call at
src/transport/subprocess.rs line 229): drop leading and trailing
whitespace characters. -/
def rustTrim (s : String) : String :=
  ⟨((s.data.dropWhile Char.isWhitespace).reverse.dropWhile Char.isWhitespace).reverse⟩

/-- One `lines.next_line()` result: a line, end of stream (`Ok(None)`), or
an I/O error (`Err(e)`). -/
inductive LineEvent where
  | line (s : String)
  | eof
  | ioError

/-- One item pushed onto the inbound channel: `Ok(value)` or `Err(Io(e))`. -/
inductive PumpItem where
  | ok (value : Json)
  | ioErr

/-- The stdout reader loop (src/transport/subprocess.rs lines 223-252):
trim the line, skip it when blank, decode it, push a frame on success,
log and skip on decode failure, stop at end of stream, forward and stop on
an I/O error.  The result is the sequence pushed to the inbound channel. -/
def stdout_pump (decode : String → Option Json) : List LineEvent → List PumpItem
  | [] => []
  | .line s :: rest =>
    let line := rustTrim s
    if line.isEmpty then stdout_pump decode rest
    else
      match decode line with
      | some value => .ok value :: stdout_pump decode rest
      | none => stdout_pump decode rest
  | .eof :: _ => []
  | .ioError :: _ => [.ioErr]

/-!
Concrete fixtures used by the witness theorems below.
-/

/-- A decoder recognising exactly the line `"ok"`, standing in for
`serde_json::from_str` in concrete pump scenarios. -/
def decodeEx : String → Option Json :=
  fun s => if s = "ok" then some (Json.obj [("seq", .num 1)]) else none

/-- A permission callback that denies everything with reason `"nope"`. -/
def denyCb : CanUseToolCallback := fun _ => ⟨false, some "nope"⟩

/-- A hook callback that blocks with reason `"stop"`. -/
def blockCb : HookCallback := fun _ => ⟨some .Block, some "stop"⟩

/-- A hook callback that returns no decision. -/
def quietCb : HookCallback := fun _ => ⟨none, none⟩

/-- A registered pre-tool-use hook that blocks. -/
def hkBlock : HookDefinition := ⟨.PreToolUse, ⟨none⟩, blockCb⟩

/-- A registered pre-tool-use hook with no decision. -/
def hkQuiet : HookDefinition := ⟨.PreToolUse, ⟨none⟩, quietCb⟩

/-- A `hook_callback` control-request body addressing hook 0. -/
def reqHook0 : Json :=
  Json.obj [("callback_id", .str "hook_0"), ("input", .null)]

/-- An inbound `control_request` frame with an unrecognized subtype. -/
def vEx : Json :=
  Json.obj [("type", .str "control_request"), ("request_id", .str "r1"),
            ("request", Json.obj [("subtype", .str "zzz")])]

/-- An inbound `control_response` frame answering request `req_0`. -/
def frameEx : Json :=
  Json.obj [("type", .str "control_response"),
            ("response", Json.obj [("subtype", .str "success"),
                                   ("request_id", .str "req_0"),
                                   ("result", .null)])]

/-!
Supporting lemmas and sanity checks.
-/

example : (Json.obj [("a", .num 1), ("b", .null)]).get "b" = some .null := rfl
example : getStrD (Json.obj [("t", .str "x")]) "t" "" = "x" := rfl
example : getStrD (Json.obj [("t", .num 3)]) "t" "" = "" := rfl

example : parseUsize "12" = some 12 := by decide
example : parseUsize "+7" = some 7 := by decide
example : parseUsize "" = none := by decide
example : parseUsize "1a" = none := by decide
example : parseUsize "-3" = none := by decide
example : stripHook "hook_12" = some "12" := by decide
example : stripHook "hoot_12" = none := by decide

theorem renderDec_eq_core (fuel : Nat) :
    ∀ (n : Nat) (ds : List Char), Nat.toDigitsCore 10 fuel n ds = renderDec fuel n ds := by
  induction fuel with
  | zero =>
    intro n ds
    rw [Nat.toDigitsCore]
    rfl
  | succ f ih =>
    intro n ds
    rw [Nat.toDigitsCore]
    simp only [renderDec]
    split
    · rfl
    · exact ih _ _

theorem renderDec_snoc (fuel : Nat) :
    ∀ (n : Nat) (tail : List Char), renderDec fuel n [] ++ tail = renderDec fuel n tail := by
  induction fuel with
  | zero => intro n tail; rfl
  | succ f ih =>
    intro n tail
    by_cases h0 : n / 10 = 0
    · simp [renderDec, h0]
    · simp only [renderDec, if_neg h0]
      calc renderDec f (n / 10) [Nat.digitChar (n % 10)] ++ tail
          = (renderDec f (n / 10) [] ++ [Nat.digitChar (n % 10)]) ++ tail := by
            rw [ih (n / 10) [Nat.digitChar (n % 10)]]
        _ = renderDec f (n / 10) [] ++ (Nat.digitChar (n % 10) :: tail) := by
            rw [List.append_assoc]; rfl
        _ = renderDec f (n / 10) (Nat.digitChar (n % 10) :: tail) :=
            ih (n / 10) (Nat.digitChar (n % 10) :: tail)

theorem renderDec_fuel (n : Nat) : ∀ f g : Nat, n < f → n < g →
    ∀ ds : List Char, renderDec f n ds = renderDec g n ds := by
  induction n using Nat.strongRecOn with
  | _ n ih =>
    intro f g hf hg ds
    obtain ⟨f1, rfl⟩ : ∃ k, f = k + 1 := ⟨f - 1, by omega⟩
    obtain ⟨g1, rfl⟩ : ∃ k, g = k + 1 := ⟨g - 1, by omega⟩
    by_cases h0 : n / 10 = 0
    · simp [renderDec, h0]
    · have hq : n / 10 * 10 ≤ n := Nat.div_mul_le_self n 10
      simp only [renderDec, if_neg h0]
      exact ih (n / 10) (by omega) f1 g1 (by omega) (by omega) _

theorem decDigit_digitChar {m : Nat} (hm : m < 10) : decDigit (Nat.digitChar m) = m := by
  interval_cases m <;> rfl

theorem isDigit_digitChar {m : Nat} (hm : m < 10) : (Nat.digitChar m).isDigit = true := by
  interval_cases m <;> rfl

theorem decValue_renderDec (n : Nat) : decValue (renderDec (n + 1) n []) = n := by
  induction n using Nat.strongRecOn with
  | _ n ih =>
    by_cases h0 : n / 10 = 0
    · have hsmall : n % 10 = n := by omega
      simp [renderDec, h0, decValue, List.foldl_cons, List.foldl_nil, hsmall]
      exact decDigit_digitChar (by omega)
    · have hq : n / 10 * 10 ≤ n := Nat.div_mul_le_self n 10
      have hrec := ih (n / 10) (by omega)
      simp only [renderDec, if_neg h0]
      rw [renderDec_fuel (n / 10) n (n / 10 + 1) (by omega) (by omega),
        ← renderDec_snoc (n / 10 + 1) (n / 10) [Nat.digitChar (n % 10)]]
      simp only [decValue, List.foldl_append, List.foldl_cons, List.foldl_nil] at hrec ⊢
      rw [hrec, decDigit_digitChar (Nat.mod_lt n (by omega))]
      omega

theorem renderDec_digits (n : Nat) : ∀ fuel, n < fuel →
    ∀ c ∈ renderDec fuel n [], c.isDigit = true := by
  induction n using Nat.strongRecOn with
  | _ n ih =>
    intro fuel hfuel c hc
    obtain ⟨f, rfl⟩ : ∃ k, fuel = k + 1 := ⟨fuel - 1, by omega⟩
    by_cases h0 : n / 10 = 0
    · simp only [renderDec, if_pos h0, List.mem_singleton] at hc
      exact hc ▸ isDigit_digitChar (Nat.mod_lt n (by omega))
    · have hq : n / 10 * 10 ≤ n := Nat.div_mul_le_self n 10
      simp only [renderDec, if_neg h0] at hc
      rw [renderDec_fuel (n / 10) f (n / 10 + 1) (by omega) (by omega),
        ← renderDec_snoc (n / 10 + 1) (n / 10) [Nat.digitChar (n % 10)]] at hc
      rcases List.mem_append.mp hc with h | h
      · exact ih (n / 10) (by omega) (n / 10 + 1) (by omega) c h
      · simp only [List.mem_singleton] at h
        exact h ▸ isDigit_digitChar (Nat.mod_lt n (by omega))

theorem renderDec_length (n fuel : Nat) (h : n < fuel) :
    0 < (renderDec fuel n []).length := by
  obtain ⟨f, rfl⟩ : ∃ k, fuel = k + 1 := ⟨fuel - 1, by omega⟩
  by_cases h0 : n / 10 = 0
  · simp [renderDec, h0]
  · simp only [renderDec, if_neg h0]
    rw [← renderDec_snoc f (n / 10) [Nat.digitChar (n % 10)]]
    simp

theorem repr_data (n : Nat) : (Nat.repr n).data = renderDec (n + 1) n [] := by
  have hcore : (Nat.repr n).data = Nat.toDigitsCore 10 (n + 1) n [] := rfl
  rw [hcore, renderDec_eq_core]

/-- Parsing the decimal rendering of `i` recovers `i`, for every `i` that
fits in a 64-bit `usize`. -/
theorem parseUsize_repr (i : Nat) (hfit : i < 2 ^ 64) :
    parseUsize (Nat.repr i) = some i := by
  have hds : ∀ c ∈ (Nat.repr i).data, c.isDigit = true := by
    rw [repr_data]; exact renderDec_digits i (i + 1) (by omega)
  have hlen : 0 < (Nat.repr i).data.length := by
    rw [repr_data]; exact renderDec_length i (i + 1) (by omega)
  have hsign : stripPlus (Nat.repr i).data = (Nat.repr i).data := by
    rcases hd : (Nat.repr i).data with _ | ⟨c, rest⟩
    · rfl
    · have hc := hds c (hd ▸ List.mem_cons_self ..)
      have hnp : ¬c = '+' := fun hp => by rw [hp] at hc; cases hc
      simp [stripPlus, hnp]
  have he : (Nat.repr i).data.isEmpty = false := by
    rcases hd : (Nat.repr i).data with _ | ⟨c, rest⟩
    · rw [hd] at hlen; cases hlen
    · rfl
  have ha : (Nat.repr i).data.all Char.isDigit = true := List.all_eq_true.mpr hds
  have hv : decValue (Nat.repr i).data = i := by
    rw [repr_data]; exact decValue_renderDec i
  rw [parseUsize, hsign]
  simp [he, ha, hv]
  omega

theorem lookupKey_eraseKey {α : Type} (l : List (String × α)) (k : String) :
    lookupKey (eraseKey l k) k = none := by
  induction l with
  | nil => rfl
  | cons p rest ih =>
    by_cases hp : p.1 = k
    · simpa [eraseKey, List.filter_cons, hp] using ih
    · simp only [eraseKey, List.filter_cons] at ih ⊢
      simp [hp, lookupKey, ih]

theorem stripHook_append (s : String) : stripHook ("hook_" ++ s) = some s := by
  have hd : ("hook_" ++ s).data = 'h' :: 'o' :: 'o' :: 'k' :: '_' :: s.data := rfl
  rw [stripHook, hd]
  simp

/-!
Claim theorems.
-/

/-- C4: for every inbound `can_use_tool` control request, a registered
permission callback's allowed result maps to `{"behavior":"allow"}`, a
denied result maps to `{"behavior":"deny","message":<reason>}`, and an
absent capability defaults to `{"behavior":"allow"}`. -/
theorem can_use_tool_behavior (request : Json) (cb : Option CanUseToolCallback) :
    (cb = none → handle_can_use_tool request cb = Json.obj [("behavior", .str "allow")]) ∧
    (∀ f, cb = some f →
      ((f ⟨getStrD request "tool_name" "", getValD request "input"⟩).allowed = true →
        handle_can_use_tool request cb = Json.obj [("behavior", .str "allow")]) ∧
      ((f ⟨getStrD request "tool_name" "", getValD request "input"⟩).allowed = false →
        handle_can_use_tool request cb =
          Json.obj [("behavior", .str "deny"),
            ("message",
             .str ((f ⟨getStrD request "tool_name" "", getValD request "input"⟩).reason.getD ""))])) := by
  refine ⟨fun h => ?_, fun f hf => ⟨fun ha => ?_, fun ha => ?_⟩⟩
  · subst h; rfl
  · subst hf; simp [handle_can_use_tool, ha]
  · subst hf; simp [handle_can_use_tool, ha]

/-- C4 witness: a concrete denying callback produces the deny body. -/
theorem can_use_tool_behavior_witness :
    handle_can_use_tool (Json.obj [("tool_name", .str "Bash")]) (some denyCb) =
      Json.obj [("behavior", .str "deny"), ("message", .str "nope")] :=
  ((can_use_tool_behavior (Json.obj [("tool_name", .str "Bash")]) (some denyCb)).2
    denyCb rfl).2 rfl

/-- C5 counterexample: for prompt `"hi"` and no session id, the frame
written by `send_message` carries `session_id: ""` (not `null`) and an
extra `parent_tool_use_id: null` field, so it differs from the frame the
claim specifies. -/
theorem send_message_frame_counterexample :
    (send_message_frame "hi" none).get "session_id" = some (.str "") ∧
    (send_message_frame "hi" none).get "parent_tool_use_id" = some .null ∧
    send_message_frame "hi" none ≠ send_message_frame_spec "hi" none := by
  refine ⟨rfl, rfl, fun h => ?_⟩
  have hk : (["type", "message", "session_id", "parent_tool_use_id"] : List String) =
      ["type", "message", "session_id"] := congrArg Json.keys h
  exact absurd hk (by decide)

/-- C5 amended: the content frame written by `send` is exactly
`{"type":"user","message":{"role":"user","content":<prompt>},
"session_id":<the given string, or "" when absent>,
"parent_tool_use_id":null}` and nothing else. -/
theorem send_message_frame_amended (prompt : String) (session_id : Option String) :
    (send_message_frame prompt session_id).get "type" = some (.str "user") ∧
    (send_message_frame prompt session_id).get "message" =
      some (.obj [("role", .str "user"), ("content", .str prompt)]) ∧
    (send_message_frame prompt session_id).get "session_id" =
      some (.str (session_id.getD "")) ∧
    (send_message_frame prompt session_id).get "parent_tool_use_id" = some .null ∧
    (send_message_frame prompt session_id).keys =
      ["type", "message", "session_id", "parent_tool_use_id"] :=
  ⟨rfl, rfl, rfl, rfl, rfl⟩

/-- C9: every `control_response` frame the engine writes back carries
`response.subtype = "success"`, whatever the request and the outcome of
its handler; in particular no frame with `response.subtype = "error"` is
ever produced. -/
theorem control_response_subtype_success (value : Json) (hooks : List HookDefinition)
    (can_use_tool : Option CanUseToolCallback) (mcp_handler : Option McpMessageHandler)
    (resp : Json)
    (h : dispatch_control_request value hooks can_use_tool mcp_handler = some resp) :
    (resp.get "response").bind (fun r => r.get "subtype") = some (.str "success") := by
  cases hv : value.get "request" with
  | none =>
    simp only [dispatch_control_request, hv] at h
    exact Option.noConfusion h
  | some request =>
    simp only [dispatch_control_request, hv] at h
    injection h with h2
    subst h2
    rfl

/-- C9 witness: a request with an unrecognized subtype still yields a
`success` envelope (the error lives in the body). -/
theorem control_response_subtype_success_witness :
    ((Json.obj
      [("type", .str "control_response"),
       ("response", Json.obj
         [("subtype", .str "success"),
          ("request_id", .str "r1"),
          ("response", Json.obj [("error", .str "unknown subtype: zzz")])])]).get
            "response").bind (fun r => r.get "subtype") = some (.str "success") :=
  control_response_subtype_success vEx [] none none _ rfl

/-- C1 counterexample: the inbound frame
`{"type":"control_request","request_id":"r1"}` is classified to the
dispatcher but `dispatch_control_request` returns early without writing
any `control_response` (the frame has no `request` field). -/
theorem dispatch_missing_request_counterexample :
    classifyFrame (Json.obj [("type", .str "control_request"), ("request_id", .str "r1")]) =
      .toDispatcher ∧
    dispatch_control_request
      (Json.obj [("type", .str "control_request"), ("request_id", .str "r1")])
      [] none none = none :=
  ⟨rfl, rfl⟩

/-- C1 amended: every inbound `control_request` frame that carries a
`request` field produces exactly one outbound `control_response` frame
whose nested `request_id` equals the inbound frame's `request_id` string
(defaulting to `""` when that field is absent or not a string), whatever
the subtype, the registered capabilities, and the handler outcomes. -/
theorem dispatch_exactly_one_response (value : Json) (hooks : List HookDefinition)
    (can_use_tool : Option CanUseToolCallback) (mcp_handler : Option McpMessageHandler)
    (request : Json) (hreq : value.get "request" = some request) :
    ∃ resp, dispatch_control_request value hooks can_use_tool mcp_handler = some resp ∧
      resp.get "type" = some (.str "control_response") ∧
      (resp.get "response").bind (fun r => r.get "request_id") =
        some (.str (getStrD value "request_id" "")) := by
  simp only [dispatch_control_request, hreq]
  exact ⟨_, rfl, rfl, rfl⟩

/-- C1 witness: a concrete `control_request` with an unrecognized subtype
still gets exactly one `control_response` carrying its `request_id`. -/
theorem dispatch_exactly_one_response_witness :
    ∃ resp, dispatch_control_request vEx [] none none = some resp ∧
      resp.get "type" = some (.str "control_response") ∧
      (resp.get "response").bind (fun r => r.get "request_id") = some (.str "r1") :=
  dispatch_exactly_one_response vEx [] none none (Json.obj [("subtype", .str "zzz")]) rfl

/-- C2 counterexample: after `send_control_command` registers `req_0` and
its timeout elapses, the pending-request table still contains the entry
(with its receiving half dead); the claim's "the entry is removed when the
timeout elapses" is false. -/
theorem timeout_keeps_pending_counterexample :
    lookupKey ((timeoutPending (registerPending ⟨[]⟩ "req_0") "req_0").pending) "req_0" ≠
      none ∧
    lookupKey ((timeoutPending (registerPending ⟨[]⟩ "req_0") "req_0").pending) "req_0" =
      some false :=
  ⟨by decide, rfl⟩

/-- C2 amended: the pending entry for a control request is removed only
when a matching `control_response` is routed; on timeout the entry stays
in the table with its receiver dropped, so a late matching response finds
the entry, removes it, and its payload is discarded (the one-shot send
fails) rather than delivered. -/
theorem pending_entry_lifecycle (s : CorrelatorState) (request_id : String) (value : Json)
    (hframe : ((value.get "response").getD value).get "request_id" =
      some (.str request_id)) :
    lookupKey (timeoutPending (registerPending s request_id) request_id).pending
      request_id = some false ∧
    lookupKey (route_control_response
        (timeoutPending (registerPending s request_id) request_id) value).1.pending
      request_id = none ∧
    (route_control_response
        (timeoutPending (registerPending s request_id) request_id) value).2 =
      .dropped := by
  have h1 : lookupKey (timeoutPending (registerPending s request_id) request_id).pending
      request_id = some false := by
    have hp : (timeoutPending (registerPending s request_id) request_id).pending =
        (request_id, false) ::
          ((eraseKey s.pending request_id).map
            fun p => if p.1 = request_id then (p.1, false) else p) := by
      simp [timeoutPending, registerPending]
    rw [hp]
    simp [lookupKey]
  refine ⟨h1, ?_, ?_⟩
  · simp [route_control_response, getStrD, hframe, Json.asStr, h1, lookupKey_eraseKey]
  · simp [route_control_response, getStrD, hframe, Json.asStr, h1]

/-- C2 witness: the amended lifecycle at a concrete request id and a
concrete late response frame. -/
theorem pending_entry_lifecycle_witness :
    lookupKey (timeoutPending (registerPending ⟨[]⟩ "req_0") "req_0").pending
      "req_0" = some false ∧
    lookupKey (route_control_response
        (timeoutPending (registerPending ⟨[]⟩ "req_0") "req_0") frameEx).1.pending
      "req_0" = none ∧
    (route_control_response
        (timeoutPending (registerPending ⟨[]⟩ "req_0") "req_0") frameEx).2 =
      .dropped :=
  pending_entry_lifecycle ⟨[]⟩ "req_0" frameEx rfl

/-- Projection of the capability object embedded in a `control_request`
frame at `request.capabilities.<key>`. -/
def initCapability (frame : Json) (k : String) : Option Json :=
  (frame.get "request").bind fun r => (r.get "capabilities").bind fun c => c.get k

/-- C7: in the `initialize` handshake frame the capability booleans equal
the presence of the corresponding supplied capabilities: `hooks` is true
iff the hook registration list is non-empty, `permissions` iff a
permission callback was supplied, `mcp` iff an MCP handler was supplied. -/
theorem initialize_capabilities (hooks : List HookDefinition)
    (can_use_tool : Option CanUseToolCallback) (mcp_handler : Option McpMessageHandler)
    (request_id : String) :
    (initCapability (initialize_request hooks can_use_tool mcp_handler request_id)
        "hooks" = some (.bool true) ↔ hooks ≠ []) ∧
    (initCapability (initialize_request hooks can_use_tool mcp_handler request_id)
        "permissions" = some (.bool true) ↔ can_use_tool ≠ none) ∧
    (initCapability (initialize_request hooks can_use_tool mcp_handler request_id)
        "mcp" = some (.bool true) ↔ mcp_handler ≠ none) := by
  have h1 : initCapability (initialize_request hooks can_use_tool mcp_handler request_id)
      "hooks" = some (.bool (!hooks.isEmpty)) := rfl
  have h2 : initCapability (initialize_request hooks can_use_tool mcp_handler request_id)
      "permissions" = some (.bool can_use_tool.isSome) := rfl
  have h3 : initCapability (initialize_request hooks can_use_tool mcp_handler request_id)
      "mcp" = some (.bool mcp_handler.isSome) := rfl
  rw [h1, h2, h3]
  refine ⟨?_, ?_, ?_⟩
  · cases hooks <;> simp
  · cases can_use_tool <;> simp
  · cases mcp_handler <;> simp

/-- C7 witness: with one registered hook and no other capabilities, the
handshake advertises `hooks: true`. -/
theorem initialize_capabilities_witness :
    initCapability (initialize_request [hkBlock] none none "r0") "hooks" =
      some (.bool true) :=
  (initialize_capabilities [hkBlock] none none "r0").1.mpr (List.cons_ne_nil _ _)

/-- C6: in the stdout pump, a blank line produces no frame, a line that
fails to decode produces no frame and does not terminate the loop, and
every well-formed line is delivered to the inbound queue in arrival
order — in particular a valid line after an invalid one is still
delivered. -/
theorem stdout_pump_resilience (decode : String → Option Json) :
    (∀ s rest, (rustTrim s).isEmpty = true →
      stdout_pump decode (.line s :: rest) = stdout_pump decode rest) ∧
    (∀ s rest, decode (rustTrim s) = none →
      stdout_pump decode (.line s :: rest) = stdout_pump decode rest) ∧
    (∀ ls : List String, stdout_pump decode (ls.map LineEvent.line) =
      (ls.filterMap fun s =>
        if (rustTrim s).isEmpty then none else decode (rustTrim s)).map PumpItem.ok) := by
  refine ⟨fun s rest h => ?_, fun s rest h => ?_, fun ls => ?_⟩
  · simp [stdout_pump, h]
  · by_cases he : (rustTrim s).isEmpty
    · simp [stdout_pump, he]
    · simp [stdout_pump, he, h]
  · induction ls with
    | nil => rfl
    | cons s rest ih =>
      by_cases he : (rustTrim s).isEmpty
      · simp [stdout_pump, List.filterMap_cons, he, ih]
      · cases hd : decode (rustTrim s) with
        | none => simp [stdout_pump, List.filterMap_cons, he, hd, ih]
        | some v => simp [stdout_pump, List.filterMap_cons, he, hd, ih]

/-- C6 witness: with a concrete decoder, an undecodable line is skipped
without ending the loop and the following valid line is delivered. -/
theorem stdout_pump_resilience_witness :
    stdout_pump decodeEx [.line "not json", .line "ok"] =
      stdout_pump decodeEx [.line "ok"] ∧
    stdout_pump decodeEx [.line " ", .line "not json", .line "ok"] =
      [.ok (Json.obj [("seq", .num 1)])] :=
  ⟨(stdout_pump_resilience decodeEx).2.1 "not json" [.line "ok"] rfl,
   (stdout_pump_resilience decodeEx).2.2 [" ", "not json", "ok"]⟩

/-- C3: a `hook_callback` whose `callback_id` is `hook_<i>` for a valid
index `i` invokes exactly the `i`-th registered hook; a `callback_id` that
does not parse as `hook_<number>` or whose index is out of range invokes
no hook and yields the default body `{"continue": true}`. -/
theorem hook_dispatch_exact (hooks : List HookDefinition) :
    (∀ (i : Nat) (input : Json), i < hooks.length → i < 2 ^ 64 →
      invokedHookIndex
        (Json.obj [("callback_id", .str ("hook_" ++ Nat.repr i)), ("input", input)])
        hooks = some i) ∧
    (∀ request, (stripHook (getStrD request "callback_id" "")).bind parseUsize = none →
      invokedHookIndex request hooks = none ∧
      handle_hook_callback request hooks = Json.obj [("continue", .bool true)]) ∧
    (∀ request i,
      (stripHook (getStrD request "callback_id" "")).bind parseUsize = some i →
      hooks.length ≤ i →
      invokedHookIndex request hooks = none ∧
      handle_hook_callback request hooks = Json.obj [("continue", .bool true)]) := by
  refine ⟨fun i input hlen hbound => ?_, fun request h => ⟨?_, ?_⟩,
    fun request i h hlen => ⟨?_, ?_⟩⟩
  · have hid : getStrD
        (Json.obj [("callback_id", .str ("hook_" ++ Nat.repr i)), ("input", input)])
        "callback_id" "" = "hook_" ++ Nat.repr i := rfl
    simp only [invokedHookIndex, hid, stripHook_append, Option.some_bind,
      parseUsize_repr i hbound]
    rw [List.get?_eq_get hlen]
    rfl
  · simp only [invokedHookIndex, h, Option.none_bind]
  · simp only [handle_hook_callback, h, Option.none_bind]
  · simp only [invokedHookIndex, h, Option.some_bind, List.get?_eq_none.mpr hlen,
      Option.map_none']
  · simp only [handle_hook_callback, h, Option.some_bind, List.get?_eq_none.mpr hlen]

/-- C3 witness: with one registered hook, `hook_0` invokes it, a malformed
id invokes nothing, and an out-of-range id invokes nothing, both with the
default permissive body. -/
theorem hook_dispatch_exact_witness :
    invokedHookIndex
      (Json.obj [("callback_id", .str "hook_0"), ("input", .null)]) [hkQuiet] =
      some 0 ∧
    handle_hook_callback
      (Json.obj [("callback_id", .str "oops"), ("input", .null)]) [hkQuiet] =
      Json.obj [("continue", .bool true)] ∧
    handle_hook_callback
      (Json.obj [("callback_id", .str "hook_1"), ("input", .null)]) [hkQuiet] =
      Json.obj [("continue", .bool true)] :=
  ⟨(hook_dispatch_exact [hkQuiet]).1 0 .null (by decide) (by decide),
   ((hook_dispatch_exact [hkQuiet]).2.1
     (Json.obj [("callback_id", .str "oops"), ("input", .null)]) rfl).2,
   ((hook_dispatch_exact [hkQuiet]).2.2
     (Json.obj [("callback_id", .str "hook_1"), ("input", .null)]) 1 rfl
     (by decide)).2⟩

/-- C8: when a `hook_callback` dispatch reaches a registered hook, the
response body always carries a boolean `continue` field, carries
`hookSpecificOutput` whenever the hook returned a decision, and has
`continue = false` whenever that decision is `Block`. -/
theorem hook_response_shape (request : Json) (hooks : List HookDefinition) (i : Nat)
    (hook : HookDefinition)
    (hidx : (stripHook (getStrD request "callback_id" "")).bind parseUsize = some i)
    (hget : hooks.get? i = some hook) :
    (∃ b, (handle_hook_callback request hooks).get "continue" = some (.bool b)) ∧
    ((hook.callback (hookTypedInput hook.event (getValD request "input"))).decision.isSome =
        true →
      ((handle_hook_callback request hooks).get "hookSpecificOutput").isSome = true) ∧
    ((hook.callback (hookTypedInput hook.event (getValD request "input"))).decision =
        some .Block →
      (handle_hook_callback request hooks).get "continue" = some (.bool false)) := by
  refine ⟨?_, fun hdec => ?_, fun hdec => ?_⟩
  · rcases hout : (hook.callback (hookTypedInput hook.event (getValD request "input"))).decision
      with _ | d
    · exact ⟨true, by
        simp only [handle_hook_callback, hidx, Option.some_bind, hget, hout]; rfl⟩
    · by_cases hb : d = HookDecision.Block
      · subst hb
        exact ⟨false, by
          simp only [handle_hook_callback, hidx, Option.some_bind, hget, hout]
          rw [if_pos trivial]; rfl⟩
      · refine ⟨true, ?_⟩
        simp only [handle_hook_callback, hidx, Option.some_bind, hget, hout]
        rw [if_neg hb]; rfl
  · rcases hout : (hook.callback (hookTypedInput hook.event (getValD request "input"))).decision
      with _ | d
    · rw [hout] at hdec; exact absurd hdec (by simp)
    · by_cases hb : d = HookDecision.Block
      · subst hb
        simp only [handle_hook_callback, hidx, Option.some_bind, hget, hout]
        rw [if_pos trivial]; rfl
      · simp only [handle_hook_callback, hidx, Option.some_bind, hget, hout]
        rw [if_neg hb]; rfl
  · simp only [handle_hook_callback, hidx, Option.some_bind, hget, hdec]
    rw [if_pos trivial]; rfl

/-- C8 witness: a registered blocking hook at `hook_0` yields a response
with `hookSpecificOutput` present and `continue = false`. -/
theorem hook_response_shape_witness :
    ((handle_hook_callback reqHook0 [hkBlock]).get "hookSpecificOutput").isSome = true ∧
    (handle_hook_callback reqHook0 [hkBlock]).get "continue" = some (.bool false) :=
  ⟨(hook_response_shape reqHook0 [hkBlock] 0 hkBlock rfl rfl).2.1 rfl,
   (hook_response_shape reqHook0 [hkBlock] 0 hkBlock rfl rfl).2.2 rfl⟩

/-- C10: the `permissionDecision` string in `hookSpecificOutput` renders a
`Block` decision as `"deny"` (not `"block"`), `Approve` as `"approve"`,
`Ignore` as `"ignore"`, in agreement with `HookDecision::as_str`. -/
theorem hook_decision_wire_string (request : Json) (hooks : List HookDefinition)
    (i : Nat) (hook : HookDefinition) (d : HookDecision)
    (hidx : (stripHook (getStrD request "callback_id" "")).bind parseUsize = some i)
    (hget : hooks.get? i = some hook)
    (hdec : (hook.callback (hookTypedInput hook.event (getValD request "input"))).decision =
      some d) :
    ((handle_hook_callback request hooks).get "hookSpecificOutput").bind
        (fun h => h.get "permissionDecision") = some (.str d.as_str) ∧
    HookDecision.as_str .Block = "deny" ∧
    HookDecision.as_str .Approve = "approve" ∧
    HookDecision.as_str .Ignore = "ignore" := by
  refine ⟨?_, rfl, rfl, rfl⟩
  simp only [handle_hook_callback, hidx, Option.some_bind, hget, hdec]
  cases d <;> rfl

/-- C10 witness: the blocking hook's response carries
`permissionDecision = "deny"`. -/
theorem hook_decision_wire_string_witness :
    ((handle_hook_callback reqHook0 [hkBlock]).get "hookSpecificOutput").bind
        (fun h => h.get "permissionDecision") = some (.str "deny") :=
  (hook_decision_wire_string reqHook0 [hkBlock] 0 hkBlock .Block rfl rfl rfl).1
